import Mathlib

/-!
Shallow embedding of `analyze_combined_performance` from `src/Streamlit_fng.py`
(the "Comparative Sentiment Performance Matrix" aggregator), together with the
pandas/numpy primitives it relies on (`DataFrame.tail`, `np.linspace`,
`pd.cut(..., include_lowest=True)`, `groupby(observed=False).agg(['mean','count'])`),
modelled over exact rationals.  Missing floating-point values (`NaN`) are
modelled as `Option.none`; a raised Python exception is modelled as
`Except.error` carrying the pandas error message.
-/

namespace Mag7

/-- One row of the merged price/sentiment table handed to the aggregator:
`date`, `ticker`, `close`, `Fear_Greed` (possibly missing = NaN). -/
structure Obs where
  date : Int
  ticker : String
  close : ℚ
  fearGreed : Option ℚ
deriving DecidableEq, Repr

/-- The three fixed sentiment labels `fg_labels = ['Fear', 'Neutral', 'Greed']`. -/
inductive FGLabel
  | Fear
  | Neutral
  | Greed
deriving DecidableEq, Repr

/-- One cell of the result grid: a (price-bracket, sentiment-bracket) key with
its aggregated `mean` (None when the group is empty, as pandas yields NaN) and
`count`, plus the ticker column appended by the source. `pLo`/`pHi` are the
bracket's interval bounds taken from the bin edges. -/
structure Cell where
  pIdx : ℕ
  pLo : ℚ
  pHi : ℚ
  fg : FGLabel
  mean : Option ℚ
  count : ℕ
  ticker : String
deriving DecidableEq, Repr

/-- Decidable equality of modelled call results, so concrete runs can be
checked by `decide`. -/
instance {ε α : Type} [DecidableEq ε] [DecidableEq α] : DecidableEq (Except ε α) := fun x y =>
  match x, y with
  | Except.error a, Except.error b =>
    if h : a = b then isTrue (by rw [h]) else isFalse (by intro he; cases he; exact h rfl)
  | Except.ok a, Except.ok b =>
    if h : a = b then isTrue (by rw [h]) else isFalse (by intro he; cases he; exact h rfl)
  | Except.error _, Except.ok _ => isFalse (by intro he; cases he)
  | Except.ok _, Except.error _ => isFalse (by intro he; cases he)

/-- Stable insertion of an observation into a date-sorted list (helper for
`sortByDate`, the embedding of `df.sort_values(['ticker','date'])` after the
frame has been filtered to a single ticker). -/
def insertByDate (o : Obs) : List Obs → List Obs
  | [] => [o]
  | x :: xs => if o.date ≤ x.date then o :: x :: xs else x :: insertByDate o xs

/-- Embedding of `df.sort_values(['ticker','date'])` on a single-ticker frame:
a stable sort by date (the Series invariant rules out duplicate dates, so any
tie-breaking choice is immaterial). -/
def sortByDate (l : List Obs) : List Obs := l.foldr insertByDate []

/-- Embedding of `DataFrame.tail(n)`: the last `n` rows for `n ≥ 0`, and all
rows except the first `|n|` for negative `n` (pandas semantics). -/
def tailN (n : Int) (xs : List α) : List α :=
  if 0 ≤ n then xs.drop (xs.length - n.toNat) else xs.drop (-n).toNat

/-- Embedding of `np.linspace(a, b, num)`: `num` evenly spaced samples from
`a` to `b` inclusive; raises for negative `num`. Exact in ℚ (numpy pins the
final sample to `b`, which holds definitionally here). -/
def linspace (a b : ℚ) (num : Int) : Except String (List ℚ) :=
  if num < 0 then Except.error "Number of samples must be non-negative"
  else if num ≤ 1 then Except.ok ((List.range num.toNat).map fun _ => a)
  else Except.ok ((List.range num.toNat).map fun i : ℕ => a + (i : ℚ) * (b - a) / ((num.toNat : ℚ) - 1))

/-- Non-strict monotonicity check pandas applies to explicit bin edges
(`bins must increase monotonically`); equal adjacent edges pass. -/
def binsMonotonic : List ℚ → Bool
  | b :: b' :: rest => decide (b ≤ b') && binsMonotonic (b' :: rest)
  | _ => true

/-- Whether some bin edge occurs twice (pandas' uniqueness check on edges). -/
def hasDupEdge : List ℚ → Bool
  | [] => false
  | b :: rest => rest.contains b || hasDupEdge rest

/-- The bin-edge validation performed by `pd.cut` before any value is binned:
edges must be non-decreasing, and duplicate edges raise
`Bin edges must be unique` (with `duplicates='raise'`, the default) except in
the special two-edge case, which pandas exempts. -/
def checkBins (bins : List ℚ) : Except String Unit :=
  if ¬ binsMonotonic bins then Except.error "bins must increase monotonically."
  else if hasDupEdge bins ∧ bins.length ≠ 2 then Except.error "Bin edges must be unique"
  else Except.ok ()

/-- Helper for `cutIdx`: starting from bracket number `i`, find the first
right endpoint at or above `v` (the precondition that `v` exceeds the current
left edge is maintained by the caller). -/
def cutGo (v : ℚ) : List ℚ → ℕ → Option ℕ
  | _ :: b' :: rest, i => if v ≤ b' then some i else cutGo v (b' :: rest) (i + 1)
  | _, _ => none

/-- Embedding of the binning of one value by
`pd.cut(x, bins, include_lowest=True)` (right-closed intervals): value `v`
lands in bracket 0 when `bins[0] ≤ v ≤ bins[1]` (lowest edge included) and in
bracket `i > 0` when `bins[i] < v ≤ bins[i+1]`; values outside the edge range,
or with fewer than two edges, get no bracket (NaN). -/
def cutIdx (bins : List ℚ) (v : ℚ) : Option ℕ :=
  match bins with
  | b0 :: _ :: _ => if v < b0 then none else cutGo v bins 0
  | _ => none

/-- The fixed sentiment bin edges `fg_bins = [0, 33.33, 66.67, 100]`. -/
def fgBins : List ℚ := [0, 3333/100, 6667/100, 100]

/-- Bracket number to sentiment label, following `fg_labels`. -/
def fgLabelOf : ℕ → FGLabel
  | 0 => FGLabel.Fear
  | 1 => FGLabel.Neutral
  | _ => FGLabel.Greed

/-- Embedding of `pd.cut(subset_100['Fear_Greed'], bins=fg_bins,
labels=fg_labels, include_lowest=True)` on one value: a missing score (NaN)
gets no label, otherwise the score is binned by `fgBins`. -/
def fgCut (s : Option ℚ) : Option FGLabel :=
  s.bind fun v => (cutIdx fgBins v).map fgLabelOf

/-- The minimum of a pandas numeric Series, as used for
`subset_200['close'].min()` (the empty-series case never arises: the caller
guards `len(subset_200) < 2`). -/
def listMin (l : List ℚ) : ℚ := l.foldr min (l.headD 0)

/-- The maximum of a pandas numeric Series (`subset_200['close'].max()`). -/
def listMax (l : List ℚ) : ℚ := l.foldr max (l.headD 0)

/-- Embedding of `Series.shift(-1)`: drop the first element and pad with one
trailing NaN. -/
def shiftNeg1 (xs : List ℚ) : List (Option ℚ) :=
  match xs with
  | [] => []
  | _ :: rest => rest.map some ++ [none]

/-- One analysis-set row after the derived columns of Step B are added:
`next_day_gain`, `price_bracket`, `fg_bracket` (each possibly NaN). -/
structure ARow where
  close : ℚ
  gain : Option ℚ
  pIdx : Option ℕ
  fgIdx : Option FGLabel
deriving DecidableEq, Repr

/-- The `next_day_gain` column: `subset['close'].shift(-1) - subset['close']`
(NaN propagates from the shifted position). -/
def nextDayGains (closes : List ℚ) : List (Option ℚ) :=
  List.zipWith (fun sh c => Option.map (fun x => x - c) sh) (shiftNeg1 closes) closes

/-- Build the analysis rows of Step B: gains, price brackets (`pd.cut` against
`p_bins`) and sentiment brackets (`pd.cut` against `fgBins`). -/
def mkARows (pBins : List ℚ) (rows : List Obs) : List ARow :=
  List.zipWith
    (fun o g => { close := o.close, gain := g, pIdx := cutIdx pBins o.close,
                  fgIdx := fgCut o.fearGreed })
    rows (nextDayGains (rows.map Obs.close))

/-- Membership of an analysis row in the group keyed by price bracket `i` and
sentiment bracket `j`; rows whose key has a NaN component belong to no group
(pandas `groupby` drops NaN keys). -/
def inCell (i : ℕ) (j : FGLabel) (r : ARow) : Bool :=
  r.pIdx == some i && r.fgIdx == some j

/-- One aggregated cell: `agg(['mean','count'])` over the group's
`next_day_gain` values, counting and averaging only non-NaN gains; an empty
group has `count = 0` and NaN mean. -/
def mkCell (tk : String) (pBins : List ℚ) (rows : List ARow) (i : ℕ) (j : FGLabel) : Cell :=
  let gains := (rows.filter (inCell i j)).filterMap ARow.gain
  { pIdx := i, pLo := pBins.getD i 0, pHi := pBins.getD (i + 1) 0, fg := j,
    mean := if gains.length = 0 then none else some (gains.sum / (gains.length : ℚ)),
    count := gains.length, ticker := tk }

/-- The order in which `groupby(..., observed=False)` enumerates the sentiment
categories. -/
def fgLabels : List FGLabel := [FGLabel.Fear, FGLabel.Neutral, FGLabel.Greed]

/-- Embedding of `groupby(['price_bracket','fg_bracket'], observed=False)`
followed by `agg(['mean','count'])`: the full cross product of the
`len(p_bins) - 1` price intervals with the three sentiment labels, price
bracket outermost, every combination present regardless of sparsity. -/
def mkGrid (tk : String) (pBins : List ℚ) (rows : List ARow) : List Cell :=
  (List.range (pBins.length - 1)).flatMap fun i => fgLabels.map fun j => mkCell tk pBins rows i j

/-- The filter-and-sort prefix of the aggregator: keep the rows of the chosen
ticker dated at or before the target date, sorted ascending by date (the
`df[df['ticker'] == ticker]`, `df[df['date'] <= target_date]` and
`df.sort_values(['ticker','date'])` steps). -/
def filteredSorted (df : List Obs) (ticker : String) (targetDate : Int) : List Obs :=
  sortByDate (df.filter fun o => o.ticker == ticker && decide (o.date ≤ targetDate))

/-- Embedding of `analyze_combined_performance(df, ticker, target_date,
lookback_window, analysis_window, num_brackets)` from `src/Streamlit_fng.py`.
The frame is filtered to the ticker and to dates ≤ `target_date` and sorted by
date; a `groupby('ticker')` then yields at most one group (no group when the
filtered frame is empty, so `results` stays empty and the empty frame is
returned — the same outcome as the `len(subset_200) < 2: continue` guard, so
both paths are the first branch below).  Price bin edges come from
`np.linspace` over the min/max close of the trailing `lookback_window` rows;
`pd.cut` validates them (possibly raising) before the trailing
`analysis_window` rows are aggregated. `Except.ok []` is the empty DataFrame
sentinel; `Except.error` is a raised exception. -/
def analyze_combined_performance (df : List Obs) (ticker : String) (targetDate : Int)
    (lookbackWindow : Int := 200) (analysisWindow : Int := 100) (numBrackets : Int := 10) :
    Except String (List Cell) :=
  let g := filteredSorted df ticker targetDate
  let subsetL := tailN lookbackWindow g
  if subsetL.length < 2 then Except.ok []
  else
    let closesL := subsetL.map Obs.close
    let minClose := listMin closesL
    let maxClose := listMax closesL
    match linspace minClose maxClose (numBrackets + 1) with
    | Except.error e => Except.error e
    | Except.ok pBins =>
      match checkBins pBins with
      | Except.error e => Except.error e
      | Except.ok _ =>
        let subsetA := tailN analysisWindow g
        Except.ok (mkGrid ticker pBins (mkARows pBins subsetA))

/-- The concrete 5-day series of the spec's scenario: instrument `X`, closes
`[100, 102, 98, 101, 103]`, sentiment `[20, 40, 60, 80, NaN]`, dated 0..4. -/
def specSeries : List Obs :=
  [⟨0, "X", 100, some 20⟩, ⟨1, "X", 102, some 40⟩, ⟨2, "X", 98, some 60⟩,
   ⟨3, "X", 101, some 80⟩, ⟨4, "X", 103, none⟩]

/-- Total of the `count` column over a result grid. -/
def sumCounts (g : List Cell) : ℕ := (g.map Cell.count).sum

/-- Whether an analysis row is counted in some cell of a grid with `nb` price
brackets: its gain must be non-NaN, its sentiment bracket assigned, and its
price bracket assigned to one of the `nb` brackets. -/
def contributes (nb : ℕ) (r : ARow) : Bool :=
  r.gain.isSome && r.fgIdx.isSome &&
    (match r.pIdx with
     | some i => decide (i < nb)
     | none => false)

/-- Mathematical membership of a value in price bracket `i` of an edge list:
the first bracket is the closed interval from edge 0 to edge 1, every later
bracket `i` is the half-open interval from edge `i` (excluded) to edge `i+1`
(included). -/
def bracketMem (bins : List ℚ) (i : ℕ) (v : ℚ) : Prop :=
  i + 1 < bins.length ∧ (if i = 0 then bins.getD 0 0 ≤ v else bins.getD i 0 < v) ∧
    v ≤ bins.getD (i + 1) 0

/-- The evenly spaced edge list `np.linspace(a, b, m + 1)` produces (proved
equal to `linspace`'s output below). -/
def binEdges (a b : ℚ) (m : ℕ) : List ℚ :=
  (List.range (m + 1)).map fun i : ℕ => a + (i : ℚ) * (b - a) / (m : ℚ)

/-- The result grid the spec's concrete scenario asserts, transcribed from the
spec's words for comparison with the computed one: cell ([98,100.5], Fear)
mean 2 count 1, ([98,100.5], Neutral) mean −4 count 1, ((100.5,103], Greed)
mean 2.5 count 2, every other cell count 0. -/
def specClaimedGrid : List Cell :=
  [⟨0, 98, 201/2, FGLabel.Fear, some 2, 1, "X"⟩,
   ⟨0, 98, 201/2, FGLabel.Neutral, some (-4), 1, "X"⟩,
   ⟨0, 98, 201/2, FGLabel.Greed, none, 0, "X"⟩,
   ⟨1, 201/2, 103, FGLabel.Fear, none, 0, "X"⟩,
   ⟨1, 201/2, 103, FGLabel.Neutral, none, 0, "X"⟩,
   ⟨1, 201/2, 103, FGLabel.Greed, some (5/2), 2, "X"⟩]

/-- The grid the code actually computes on the spec's concrete scenario. -/
def scenarioGrid : List Cell :=
  [⟨0, 98, 201/2, FGLabel.Fear, some 2, 1, "X"⟩,
   ⟨0, 98, 201/2, FGLabel.Neutral, some 3, 1, "X"⟩,
   ⟨0, 98, 201/2, FGLabel.Greed, none, 0, "X"⟩,
   ⟨1, 201/2, 103, FGLabel.Fear, none, 0, "X"⟩,
   ⟨1, 201/2, 103, FGLabel.Neutral, some (-4), 1, "X"⟩,
   ⟨1, 201/2, 103, FGLabel.Greed, some 2, 1, "X"⟩]

/-- A 3-day constant-price series (every close equal), for the degenerate
range scenario. -/
def flatSeries : List Obs :=
  [⟨0, "X", 100, some 50⟩, ⟨1, "X", 100, some 50⟩, ⟨2, "X", 100, some 50⟩]

/-- A 2-day series whose dates (0 and 1) do not include the target date 5
used against it. -/
def shortSeries : List Obs :=
  [⟨0, "X", 100, some 50⟩, ⟨1, "X", 102, some 50⟩]

/-- The grid computed for `shortSeries` with target date 5 (a date absent from
the series), lookback 5, analysis 5, 2 brackets. -/
def shortGrid : List Cell :=
  [⟨0, 100, 101, FGLabel.Fear, none, 0, "X"⟩,
   ⟨0, 100, 101, FGLabel.Neutral, some 2, 1, "X"⟩,
   ⟨0, 100, 101, FGLabel.Greed, none, 0, "X"⟩,
   ⟨1, 101, 102, FGLabel.Fear, none, 0, "X"⟩,
   ⟨1, 101, 102, FGLabel.Neutral, none, 0, "X"⟩,
   ⟨1, 101, 102, FGLabel.Greed, none, 0, "X"⟩]

/-- The grid computed on the 5-day scenario series with `lookback_window = 2`
and `analysis_window = 5`: the lookback range is [101, 103], so the analysis
closes 100 and 98 fall outside every bracket and are dropped. -/
def c5Grid : List Cell :=
  [⟨0, 101, 102, FGLabel.Fear, none, 0, "X"⟩,
   ⟨0, 101, 102, FGLabel.Neutral, some (-4), 1, "X"⟩,
   ⟨0, 101, 102, FGLabel.Greed, some 2, 1, "X"⟩,
   ⟨1, 102, 103, FGLabel.Fear, none, 0, "X"⟩,
   ⟨1, 102, 103, FGLabel.Neutral, none, 0, "X"⟩,
   ⟨1, 102, 103, FGLabel.Greed, none, 0, "X"⟩]

/-- A 3-day series with no sentiment value on any day, for the
all-sentiment-missing scenario. -/
def noFgSeries : List Obs :=
  [⟨0, "X", 100, none⟩, ⟨1, "X", 102, none⟩, ⟨2, "X", 101, none⟩]

/-- The price bin edges of the spec scenario: `np.linspace(98, 103, 3)`. -/
def scenarioBins : List ℚ := [98, 201/2, 103]

/-- The analysis rows of the spec scenario after Step B (gains, price
brackets, sentiment brackets). -/
def scenarioARows : List ARow :=
  [⟨100, some 2, some 0, some FGLabel.Fear⟩,
   ⟨102, some (-4), some 1, some FGLabel.Neutral⟩,
   ⟨98, some 3, some 0, some FGLabel.Neutral⟩,
   ⟨101, some 2, some 1, some FGLabel.Greed⟩,
   ⟨103, none, some 1, none⟩]

/-- The price bin edges for `shortSeries`: `np.linspace(100, 102, 3)`. -/
def shortBins : List ℚ := [100, 101, 102]

/-- The analysis rows for `shortSeries`. -/
def shortARows : List ARow :=
  [⟨100, some 2, some 0, some FGLabel.Neutral⟩,
   ⟨102, none, some 1, some FGLabel.Neutral⟩]

/-- The price bin edges of the scenario run with `lookback_window = 2`:
`np.linspace(101, 103, 3)`. -/
def c5Bins : List ℚ := [101, 102, 103]

/-- The analysis rows of the scenario run with `lookback_window = 2`: the
closes 100 and 98 lie outside [101, 103] and get no price bracket. -/
def c5ARows : List ARow :=
  [⟨100, some 2, none, some FGLabel.Fear⟩,
   ⟨102, some (-4), some 0, some FGLabel.Neutral⟩,
   ⟨98, some 3, none, some FGLabel.Neutral⟩,
   ⟨101, some 2, some 0, some FGLabel.Greed⟩,
   ⟨103, none, some 1, none⟩]

lemma foldr_min_le (d : ℚ) (l : List ℚ) : ∀ x ∈ l, l.foldr min d ≤ x := by
  induction l with
  | nil => intro x hx; cases hx
  | cons a as ih =>
    intro x hx
    rcases List.mem_cons.mp hx with h | h
    · subst h; exact min_le_left _ _
    · exact le_trans (min_le_right _ _) (ih x h)

lemma le_foldr_max (d : ℚ) (l : List ℚ) : ∀ x ∈ l, x ≤ l.foldr max d := by
  induction l with
  | nil => intro x hx; cases hx
  | cons a as ih =>
    intro x hx
    rcases List.mem_cons.mp hx with h | h
    · subst h; exact le_max_left _ _
    · exact le_trans (ih x h) (le_max_right _ _)

lemma listMin_le (l : List ℚ) : ∀ x ∈ l, listMin l ≤ x := foldr_min_le _ l

lemma le_listMax (l : List ℚ) : ∀ x ∈ l, x ≤ listMax l := le_foldr_max _ l

lemma foldr_min_mem (d : ℚ) (l : List ℚ) : l.foldr min d ∈ l ∨ l.foldr min d = d := by
  induction l with
  | nil => exact Or.inr rfl
  | cons a as ih =>
    rcases min_choice a (as.foldr min d) with h | h
    · exact Or.inl (by rw [List.foldr_cons, h]; exact List.mem_cons_self _ _)
    · rcases ih with h2 | h2
      · exact Or.inl (by rw [List.foldr_cons, h]; exact List.mem_cons_of_mem _ h2)
      · exact Or.inr (by rw [List.foldr_cons, h, h2])

lemma foldr_max_mem (d : ℚ) (l : List ℚ) : l.foldr max d ∈ l ∨ l.foldr max d = d := by
  induction l with
  | nil => exact Or.inr rfl
  | cons a as ih =>
    rcases max_choice a (as.foldr max d) with h | h
    · exact Or.inl (by rw [List.foldr_cons, h]; exact List.mem_cons_self _ _)
    · rcases ih with h2 | h2
      · exact Or.inl (by rw [List.foldr_cons, h]; exact List.mem_cons_of_mem _ h2)
      · exact Or.inr (by rw [List.foldr_cons, h, h2])

lemma listMin_mem (l : List ℚ) (h : l ≠ []) : listMin l ∈ l := by
  rcases foldr_min_mem (l.headD 0) l with h2 | h2
  · exact h2
  · rw [listMin, h2]
    cases l with
    | nil => exact absurd rfl h
    | cons a as => exact List.mem_cons_self _ _

lemma listMax_mem (l : List ℚ) (h : l ≠ []) : listMax l ∈ l := by
  rcases foldr_max_mem (l.headD 0) l with h2 | h2
  · exact h2
  · rw [listMax, h2]
    cases l with
    | nil => exact absurd rfl h
    | cons a as => exact List.mem_cons_self _ _

lemma mem_insertByDate {x o : Obs} {l : List Obs} :
    x ∈ insertByDate o l ↔ x = o ∨ x ∈ l := by
  induction l with
  | nil => simp [insertByDate]
  | cons a as ih =>
    by_cases h : o.date ≤ a.date
    · simp [insertByDate, h]
    · simp [insertByDate, h, ih]
      tauto

lemma mem_sortByDate {x : Obs} {l : List Obs} : x ∈ sortByDate l ↔ x ∈ l := by
  induction l with
  | nil => simp [sortByDate]
  | cons a as ih =>
    rw [sortByDate, List.foldr_cons, mem_insertByDate]
    rw [sortByDate] at ih
    rw [ih]
    simp

lemma mem_filteredSorted {o : Obs} {df : List Obs} {tk : String} {td : Int}
    (h : o ∈ filteredSorted df tk td) : o ∈ df := by
  rw [filteredSorted, mem_sortByDate] at h
  exact List.mem_of_mem_filter h

lemma tailN_subset (n : Int) (l : List Obs) : tailN n l ⊆ l := by
  rw [tailN]
  split <;> exact List.drop_subset _ _

lemma tailN_subset_tailN {a b : Int} (h0 : 0 ≤ a) (hab : a ≤ b) (l : List Obs) :
    tailN a l ⊆ tailN b l := by
  have h0b : 0 ≤ b := le_trans h0 hab
  rw [tailN, tailN, if_pos h0, if_pos h0b]
  have hle : l.length - b.toNat ≤ l.length - a.toNat := by omega
  have : l.length - a.toNat = (l.length - b.toNat) + ((l.length - a.toNat) - (l.length - b.toNat)) := by
    omega
  rw [this, ← List.drop_drop]
  exact List.drop_subset _ _

lemma tailN_length_lt_two {n : Int} (h0 : 0 ≤ n) (h : n < 2) (l : List Obs) :
    (tailN n l).length < 2 := by
  rw [tailN, if_pos h0, List.length_drop]
  omega

lemma linspace_ok (a b : ℚ) (nb : Int) (h : 1 ≤ nb) :
    linspace a b (nb + 1) = Except.ok (binEdges a b nb.toNat) := by
  have h1 : ¬ nb + 1 < 0 := by omega
  have h2 : ¬ nb + 1 ≤ 1 := by omega
  have h3 : (nb + 1).toNat = nb.toNat + 1 := by omega
  have h4 : ((nb.toNat + 1 : ℕ) : ℚ) - 1 = (nb.toNat : ℚ) := by push_cast; ring
  rw [linspace, if_neg h1, if_neg h2, binEdges, h3]
  simp only [h4]

lemma binEdges_length (a b : ℚ) (m : ℕ) : (binEdges a b m).length = m + 1 := by
  simp [binEdges]

lemma binEdges_getD {a b : ℚ} {m i : ℕ} (h : i < m + 1) :
    (binEdges a b m).getD i 0 = a + (i : ℚ) * (b - a) / (m : ℚ) := by
  have hlen : i < (binEdges a b m).length := by rw [binEdges_length]; exact h
  rw [List.getD_eq_getElem _ _ hlen]
  simp [binEdges]

lemma binEdges_getD_zero (a b : ℚ) (m : ℕ) : (binEdges a b m).getD 0 0 = a := by
  rw [binEdges_getD (by omega)]
  simp

lemma binEdges_getD_last {a b : ℚ} {m : ℕ} (h : 1 ≤ m) :
    (binEdges a b m).getD m 0 = b := by
  rw [binEdges_getD (by omega)]
  have hm : (m : ℚ) ≠ 0 := Nat.cast_ne_zero.mpr (by omega)
  field_simp

lemma binEdges_pairwise_lt {a b : ℚ} {m : ℕ} (hab : a < b) (hm : 1 ≤ m) :
    (binEdges a b m).Pairwise (· < ·) := by
  rw [List.pairwise_iff_getElem]
  intro i j hi hj hij
  rw [binEdges_length] at hi hj
  have e1 : (binEdges a b m)[i] = a + (i : ℚ) * (b - a) / (m : ℚ) := by
    rw [← List.getD_eq_getElem _ 0, binEdges_getD hi]
  have e2 : (binEdges a b m)[j] = a + (j : ℚ) * (b - a) / (m : ℚ) := by
    rw [← List.getD_eq_getElem _ 0, binEdges_getD hj]
  rw [e1, e2]
  have hq : (0 : ℚ) < (b - a) / (m : ℚ) := by
    apply div_pos (by linarith)
    exact_mod_cast (by omega : 0 < m)
  have hij' : (i : ℚ) < (j : ℚ) := by exact_mod_cast hij
  have := mul_lt_mul_of_pos_right hij' hq
  calc a + (i : ℚ) * (b - a) / (m : ℚ) = a + (i : ℚ) * ((b - a) / (m : ℚ)) := by ring
    _ < a + (j : ℚ) * ((b - a) / (m : ℚ)) := by linarith
    _ = a + (j : ℚ) * (b - a) / (m : ℚ) := by ring

lemma binEdges_const (a : ℚ) (m : ℕ) : binEdges a a m = List.replicate (m + 1) a := by
  have : (binEdges a a m) = (List.range (m + 1)).map fun _ => a := by
    rw [binEdges]
    congr 1
    funext i
    simp
  rw [this, List.map_const', List.length_range]

lemma binsMonotonic_of_pairwise {l : List ℚ} (h : l.Pairwise (· ≤ ·)) :
    binsMonotonic l = true := by
  induction l with
  | nil => rfl
  | cons b t ih =>
    cases t with
    | nil => rfl
    | cons b' rest =>
      rw [List.pairwise_cons] at h
      rw [binsMonotonic]
      have hble : b ≤ b' := h.1 b' (List.mem_cons_self _ _)
      rw [ih h.2]
      simp [hble]

lemma hasDupEdge_eq_false {l : List ℚ} (h : l.Pairwise (· < ·)) : hasDupEdge l = false := by
  induction l with
  | nil => rfl
  | cons b t ih =>
    rw [List.pairwise_cons] at h
    rw [hasDupEdge, ih h.2]
    have : b ∉ t := fun hmem => lt_irrefl b (h.1 b hmem)
    simp [this]

lemma checkBins_ok {l : List ℚ} (h : l.Pairwise (· < ·)) : checkBins l = Except.ok () := by
  rw [checkBins]
  rw [if_neg, if_neg]
  · rw [hasDupEdge_eq_false h]
    simp
  · rw [binsMonotonic_of_pairwise (h.imp le_of_lt)]
    simp

lemma binsMonotonic_replicate (a : ℚ) : ∀ n, binsMonotonic (List.replicate n a) = true := by
  intro n
  induction n with
  | zero => rfl
  | succ k ih =>
    cases k with
    | zero => rfl
    | succ k2 =>
      rw [List.replicate_succ, List.replicate_succ, binsMonotonic]
      rw [← List.replicate_succ, ih]
      simp

lemma checkBins_replicate {a : ℚ} {n : ℕ} (h : 3 ≤ n) :
    checkBins (List.replicate n a) = Except.error "Bin edges must be unique" := by
  rw [checkBins, if_neg, if_pos]
  · constructor
    · obtain ⟨k, rfl⟩ : ∃ k, n = k + 1 := ⟨n - 1, by omega⟩
      rw [List.replicate_succ, hasDupEdge]
      have : a ∈ List.replicate k a := List.mem_replicate.mpr ⟨by omega, rfl⟩
      simp [this]
    · rw [List.length_replicate]
      omega
  · rw [binsMonotonic_replicate]
    simp

lemma checkBins_pair (a : ℚ) : checkBins [a, a] = Except.ok () := by
  simp [checkBins, binsMonotonic, hasDupEdge]

lemma cutGo_some_iff (v : ℚ) :
    ∀ (bs : List ℚ) (k i : ℕ),
      cutGo v bs k = some i ↔
        ∃ m, i = k + m ∧ m + 1 < bs.length ∧ v ≤ bs.getD (m + 1) 0 ∧
          ∀ t, t < m → ¬ v ≤ bs.getD (t + 1) 0 := by
  intro bs
  induction bs with
  | nil =>
    intro k i
    constructor
    · intro h; cases h
    · rintro ⟨m, _, hm, _, _⟩; simp at hm
  | cons b t ih =>
    intro k i
    cases t with
    | nil =>
      constructor
      · intro h; cases h
      · rintro ⟨m, _, hm, _, _⟩; simp at hm
    | cons b' rest =>
      by_cases hv : v ≤ b'
      · rw [cutGo, if_pos hv]
        constructor
        · intro h
          have hik : k = i := Option.some.inj h
          subst hik
          exact ⟨0, by omega, by simp only [List.length_cons]; omega,
            by simpa using hv, fun t ht => absurd ht (by omega)⟩
        · rintro ⟨m, rfl, hlen, hle, hmin⟩
          have hm0 : m = 0 := by
            by_contra hne
            exact hmin 0 (by omega) (by simpa using hv)
          subst hm0
          simp
      · rw [cutGo, if_neg hv]
        rw [ih (k + 1) i]
        constructor
        · rintro ⟨m, rfl, hlen, hle, hmin⟩
          refine ⟨m + 1, by omega, by simp at hlen ⊢; omega, by simpa using hle, ?_⟩
          intro t ht
          cases t with
          | zero => simpa using hv
          | succ s =>
            have := hmin s (by omega)
            simpa using this
        · rintro ⟨m, rfl, hlen, hle, hmin⟩
          cases m with
          | zero => exact absurd (by simpa using hle) hv
          | succ s =>
            refine ⟨s, by omega, by simp at hlen ⊢; omega, by simpa using hle, ?_⟩
            intro t ht
            have := hmin (t + 1) (by omega)
            simpa using this

lemma cutIdx_some_iff (bins : List ℚ) (v : ℚ) (i : ℕ) :
    cutIdx bins v = some i ↔
      bins.getD 0 0 ≤ v ∧ i + 1 < bins.length ∧ v ≤ bins.getD (i + 1) 0 ∧
        ∀ t, t < i → ¬ v ≤ bins.getD (t + 1) 0 := by
  match bins with
  | [] =>
    constructor
    · intro h; cases h
    · rintro ⟨_, hm, _, _⟩; simp at hm
  | [b] =>
    constructor
    · intro h; cases h
    · rintro ⟨_, hm, _, _⟩; simp at hm
  | b0 :: b1 :: rest =>
    rw [cutIdx]
    by_cases hlt : v < b0
    · rw [if_pos hlt]
      constructor
      · intro h; cases h
      · rintro ⟨hge, _, _, _⟩
        simp at hge
        linarith
    · rw [if_neg hlt]
      rw [cutGo_some_iff v (b0 :: b1 :: rest) 0 i]
      constructor
      · rintro ⟨m, rfl, hlen, hle, hmin⟩
        exact ⟨by simpa using le_of_not_lt hlt, by simpa using hlen, by simpa using hle, by simpa using hmin⟩
      · rintro ⟨hge, hlen, hle, hmin⟩
        exact ⟨i, by omega, hlen, hle, hmin⟩

lemma cutGo_none_of_forall {v : ℚ} :
    ∀ (bs : List ℚ) (k : ℕ), (∀ x ∈ bs, ¬ v ≤ x) → cutGo v bs k = none := by
  intro bs
  induction bs with
  | nil => intro k _; rfl
  | cons b t ih =>
    intro k h
    cases t with
    | nil => rfl
    | cons b' rest =>
      rw [cutGo, if_neg (h b' (by simp))]
      exact ih (k + 1) (fun x hx => h x (List.mem_cons_of_mem _ hx))

lemma cutIdx_none_of_gt {bins : List ℚ} {v c : ℚ} (hall : ∀ x ∈ bins, x ≤ c)
    (hv : c < v) : cutIdx bins v = none := by
  match bins with
  | [] => rfl
  | [b] => rfl
  | b0 :: b1 :: rest =>
    rw [cutIdx]
    rw [if_neg (by push_neg; linarith [hall b0 (by simp)])]
    exact cutGo_none_of_forall _ 0 (fun x hx => by push_neg; linarith [hall x hx])

lemma cutIdx_none_of_lt {bins : List ℚ} {v : ℚ} (h2 : 2 ≤ bins.length)
    (hv : v < bins.getD 0 0) : cutIdx bins v = none := by
  match bins with
  | [] => rfl
  | [b] => rfl
  | b0 :: b1 :: rest =>
    rw [cutIdx, if_pos (by simpa using hv)]

lemma cutIdx_bracketMem {bins : List ℚ} {v : ℚ} {i : ℕ} (h : cutIdx bins v = some i) :
    bracketMem bins i v := by
  rw [cutIdx_some_iff] at h
  obtain ⟨hge, hlen, hle, hmin⟩ := h
  refine ⟨hlen, ?_, hle⟩
  split
  · exact hge
  · next hi =>
    have := hmin (i - 1) (by omega)
    have he : i - 1 + 1 = i := by omega
    rw [he] at this
    linarith [lt_of_not_le this]

lemma getD_mono {l : List ℚ} (h : l.Pairwise (· ≤ ·)) {i j : ℕ} (hij : i ≤ j)
    (hj : j < l.length) : l.getD i 0 ≤ l.getD j 0 := by
  rcases Nat.lt_or_ge i j with hlt | hge
  · rw [List.getD_eq_getElem _ _ (by omega), List.getD_eq_getElem _ _ hj]
    exact List.pairwise_iff_getElem.mp h i j (by omega) hj hlt
  · have : i = j := by omega
    subst this
    exact le_refl _

lemma bracketMem_unique {bins : List ℚ} (h : bins.Pairwise (· ≤ ·)) {v : ℚ} {i j : ℕ}
    (hi : bracketMem bins i v) (hj : bracketMem bins j v) : i = j := by
  obtain ⟨hilen, hilo, hihi⟩ := hi
  obtain ⟨hjlen, hjlo, hjhi⟩ := hj
  by_contra hne
  rcases Nat.lt_or_ge i j with hlt | hge
  · have hj0 : j ≠ 0 := by omega
    rw [if_neg hj0] at hjlo
    have : bins.getD (i + 1) 0 ≤ bins.getD j 0 := getD_mono h (by omega) (by omega)
    linarith
  · have hlt : j < i := by omega
    have hi0 : i ≠ 0 := by omega
    rw [if_neg hi0] at hilo
    have : bins.getD (j + 1) 0 ≤ bins.getD i 0 := getD_mono h (by omega) (by omega)
    linarith

lemma cutIdx_isSome_of_between {bins : List ℚ} {v : ℚ} (h2 : 2 ≤ bins.length)
    (hlo : bins.getD 0 0 ≤ v) (hhi : v ≤ bins.getD (bins.length - 1) 0) :
    ∃ i, cutIdx bins v = some i ∧ i + 1 < bins.length := by
  have hex : ∃ m, v ≤ bins.getD (m + 1) 0 :=
    ⟨bins.length - 2, by
      have : bins.length - 2 + 1 = bins.length - 1 := by omega
      rw [this]; exact hhi⟩
  classical
  let i := Nat.find hex
  have hspec : v ≤ bins.getD (i + 1) 0 := Nat.find_spec hex
  have hmin : ∀ t, t < i → ¬ v ≤ bins.getD (t + 1) 0 := fun t ht => Nat.find_min hex ht
  have hle : i ≤ bins.length - 2 := Nat.find_min' hex (by
    have : bins.length - 2 + 1 = bins.length - 1 := by omega
    rw [this]; exact hhi)
  refine ⟨i, ?_, by omega⟩
  rw [cutIdx_some_iff]
  exact ⟨hlo, by omega, hspec, hmin⟩

lemma fgCut_none : fgCut none = none := rfl

lemma fgCut_some (s : ℚ) :
    fgCut (some s) =
      if s < 0 then none
      else if s ≤ 3333/100 then some FGLabel.Fear
      else if s ≤ 6667/100 then some FGLabel.Neutral
      else if s ≤ 100 then some FGLabel.Greed
      else none := by
  rw [fgCut, Option.some_bind, fgBins, cutIdx]
  by_cases h0 : s < 0
  · rw [if_pos h0, if_pos h0]
    rfl
  · rw [if_neg h0, if_neg h0, cutGo]
    by_cases h1 : s ≤ 3333/100
    · rw [if_pos h1, if_pos h1]
      rfl
    · rw [if_neg h1, if_neg h1, cutGo]
      by_cases h2 : s ≤ 6667/100
      · rw [if_pos h2, if_pos h2]
        rfl
      · rw [if_neg h2, if_neg h2, cutGo]
        by_cases h3 : s ≤ 100
        · rw [if_pos h3, if_pos h3]
          rfl
        · rw [if_neg h3, if_neg h3]
          rfl

lemma fgCut_isSome_of_range {s : ℚ} (h0 : 0 ≤ s) (h1 : s ≤ 100) :
    (fgCut (some s)).isSome = true := by
  rw [fgCut_some]
  rw [if_neg (by linarith)]
  by_cases h2 : s ≤ 3333/100
  · rw [if_pos h2]; rfl
  · rw [if_neg h2]
    by_cases h3 : s ≤ 6667/100
    · rw [if_pos h3]; rfl
    · rw [if_neg h3, if_pos h1]; rfl

lemma mkARows_nil (pB : List ℚ) : mkARows pB [] = [] := rfl

lemma mkARows_single (pB : List ℚ) (o : Obs) :
    mkARows pB [o] = [⟨o.close, none, cutIdx pB o.close, fgCut o.fearGreed⟩] := rfl

lemma mkARows_cons₂ (pB : List ℚ) (o o' : Obs) (rest : List Obs) :
    mkARows pB (o :: o' :: rest) =
      ⟨o.close, some (o'.close - o.close), cutIdx pB o.close, fgCut o.fearGreed⟩ ::
        mkARows pB (o' :: rest) := by
  rw [mkARows, mkARows]
  rw [List.map_cons, List.map_cons, nextDayGains, nextDayGains, shiftNeg1, shiftNeg1]
  rw [List.map_cons, List.cons_append, List.zipWith_cons_cons, List.zipWith_cons_cons]
  rfl

lemma mkGrid_length (tk : String) (pB : List ℚ) (rows : List ARow) :
    (mkGrid tk pB rows).length = (pB.length - 1) * 3 := by
  rw [mkGrid, List.length_flatMap]
  have h2 : (List.length ∘ fun i => fgLabels.map fun j => mkCell tk pB rows i j) =
      fun _ : ℕ => 3 := by
    funext i
    rfl
  rw [h2, List.map_const', List.sum_replicate, List.length_range, smul_eq_mul]

lemma sum_range_indicator (i : ℕ) :
    ∀ n : ℕ, ((List.range n).map fun k => if k = i then (1 : ℕ) else 0).sum =
      if i < n then 1 else 0 := by
  intro n
  induction n with
  | zero => simp
  | succ n ih =>
    rw [List.range_succ, List.map_append, List.sum_append, ih]
    by_cases h : i < n
    · rw [if_pos h, if_pos (by omega)]
      have : ¬ n = i := by omega
      simp [this]
    · by_cases h2 : n = i
      · subst h2
        rw [if_neg h, if_pos (by omega)]
        simp
      · rw [if_neg h, if_neg (by omega)]
        simp [h2]

lemma mkGrid_key_count (tk : String) (pB : List ℚ) (rows : List ARow) (i : ℕ) (j : FGLabel) :
    (mkGrid tk pB rows).countP (fun c => c.pIdx == i && c.fg == j) =
      if i < pB.length - 1 then 1 else 0 := by
  rw [mkGrid]
  have hcell : ∀ k : ℕ,
      ((fgLabels.map fun j' => mkCell tk pB rows k j').countP fun c => c.pIdx == i && c.fg == j) =
        if k = i then 1 else 0 := by
    intro k
    by_cases hk : k = i
    · subst hk
      cases j <;> simp [fgLabels, List.countP_cons, mkCell]
    · have : (k == i) = false := by simp [hk]
      cases j <;> simp [fgLabels, List.countP_cons, mkCell, hk]
  induction (pB.length - 1) with
  | zero => simp
  | succ n ih =>
    rw [List.range_succ, List.flatMap_append, List.countP_append, ih]
    simp only [List.flatMap_cons, List.flatMap_nil, List.append_nil]
    rw [hcell n]
    by_cases h : i < n
    · rw [if_pos h, if_neg (by omega : ¬ n = i), if_pos (by omega)]
    · by_cases h2 : n = i
      · rw [if_neg h, if_pos h2, if_pos (by omega)]
      · rw [if_neg h, if_neg h2, if_neg (by omega)]

lemma mkCell_count (tk : String) (pB : List ℚ) (rows : List ARow) (i : ℕ) (j : FGLabel) :
    (mkCell tk pB rows i j).count = ((rows.filter (inCell i j)).filterMap ARow.gain).length := rfl

lemma mkCell_mean (tk : String) (pB : List ℚ) (rows : List ARow) (i : ℕ) (j : FGLabel) :
    (mkCell tk pB rows i j).mean =
      if ((rows.filter (inCell i j)).filterMap ARow.gain).length = 0 then none
      else some (((rows.filter (inCell i j)).filterMap ARow.gain).sum /
        (((rows.filter (inCell i j)).filterMap ARow.gain).length : ℚ)) := rfl

lemma gainCount_cons (i : ℕ) (j : FGLabel) (r : ARow) (rows : List ARow) :
    (((r :: rows).filter (inCell i j)).filterMap ARow.gain).length =
      ((rows.filter (inCell i j)).filterMap ARow.gain).length +
        (if inCell i j r && r.gain.isSome then 1 else 0) := by
  cases hp : inCell i j r with
  | false =>
    rw [List.filter_cons_of_neg (by rw [hp]; simp)]
    simp [hp]
  | true =>
    rw [List.filter_cons_of_pos (by rw [hp])]
    cases hg : r.gain with
    | none => simp [List.filterMap_cons, hg]
    | some x => simp [List.filterMap_cons, hg]

lemma contributes_succ_row (n : ℕ) (r : ARow) :
    (if contributes (n + 1) r then (1 : ℕ) else 0) =
      (if contributes n r then (1 : ℕ) else 0) +
        ((if inCell n FGLabel.Fear r && r.gain.isSome then (1 : ℕ) else 0) +
          ((if inCell n FGLabel.Neutral r && r.gain.isSome then (1 : ℕ) else 0) +
            (if inCell n FGLabel.Greed r && r.gain.isSome then (1 : ℕ) else 0))) := by
  obtain ⟨c, g, p, f⟩ := r
  cases g with
  | none => simp [contributes, inCell]
  | some x =>
    cases p with
    | none => simp [contributes, inCell]
    | some i =>
      cases f with
      | none => simp [contributes, inCell]
      | some l =>
        by_cases hn : i < n
        · have h1 : i < n + 1 := by omega
          have h2 : (i == n) = false := by simp; omega
          cases l <;> simp [contributes, inCell, hn, h1, h2]
        · by_cases he : i = n
          · subst he
            have h1 : i < i + 1 := by omega
            cases l <;> simp [contributes, inCell, hn, h1]
          · have h1 : ¬ i < n + 1 := by omega
            have h2 : (i == n) = false := by simp [he]
            cases l <;> simp [contributes, inCell, hn, h1, h2]

lemma countP_contributes_succ (n : ℕ) (rows : List ARow) :
    rows.countP (contributes (n + 1)) =
      rows.countP (contributes n) +
        (((rows.filter (inCell n FGLabel.Fear)).filterMap ARow.gain).length +
          (((rows.filter (inCell n FGLabel.Neutral)).filterMap ARow.gain).length +
            ((rows.filter (inCell n FGLabel.Greed)).filterMap ARow.gain).length)) := by
  induction rows with
  | nil => simp
  | cons r rows ih =>
    rw [List.countP_cons, List.countP_cons, gainCount_cons, gainCount_cons, gainCount_cons, ih]
    have := contributes_succ_row n r
    omega

lemma contributes_zero (r : ARow) : contributes 0 r = false := by
  obtain ⟨c, g, p, f⟩ := r
  cases p <;> simp [contributes]

lemma sumCounts_mkGrid (tk : String) (pB : List ℚ) (rows : List ARow) :
    sumCounts (mkGrid tk pB rows) = rows.countP (contributes (pB.length - 1)) := by
  rw [sumCounts, mkGrid]
  induction (pB.length - 1) with
  | zero =>
    rw [List.range_zero, List.flatMap_nil, List.map_nil, List.sum_nil]
    symm
    rw [List.countP_eq_zero]
    intro r _
    rw [contributes_zero]
    simp
  | succ n ih =>
    rw [List.range_succ, List.flatMap_append, List.map_append, List.sum_append, ih,
      countP_contributes_succ]
    simp only [List.flatMap_cons, List.flatMap_nil, List.append_nil, fgLabels, List.map_cons,
      List.map_nil, List.sum_cons, List.sum_nil, mkCell_count]
    omega

lemma dropLast_countP_fg (pB : List ℚ) (nbN : ℕ) :
    ∀ rows : List Obs,
      (∀ o ∈ rows, ∃ i, cutIdx pB o.close = some i ∧ i < nbN) →
      (∀ o ∈ rows, (fgCut o.fearGreed).isSome = o.fearGreed.isSome) →
      (mkARows pB rows).countP (contributes nbN) =
        rows.dropLast.countP (fun o => o.fearGreed.isSome) := by
  intro rows
  induction rows with
  | nil => intro _ _; rfl
  | cons o rest ih =>
    intro hp hf
    cases rest with
    | nil =>
      rw [mkARows_single, List.countP_cons]
      have : contributes nbN ⟨o.close, none, cutIdx pB o.close, fgCut o.fearGreed⟩ = false := by
        simp [contributes]
      rw [this]
      simp
    | cons o' rest' =>
      obtain ⟨i, hi, hilt⟩ := hp o (List.mem_cons_self _ _)
      have hcon : contributes nbN
          ⟨o.close, some (o'.close - o.close), cutIdx pB o.close, fgCut o.fearGreed⟩ =
          o.fearGreed.isSome := by
        rw [contributes]
        simp only [hi]
        rw [hf o (List.mem_cons_self _ _)]
        simp [hilt]
      rw [mkARows_cons₂, List.countP_cons, List.dropLast_cons₂, List.countP_cons,
        ih (fun x hx => hp x (List.mem_cons_of_mem _ hx))
          (fun x hx => hf x (List.mem_cons_of_mem _ hx)),
        hcon]

lemma gain_filter_skip {r : ARow} (h : r.gain = none ∨ ∀ i j, inCell i j r = false)
    (i : ℕ) (j : FGLabel) (rows : List ARow) :
    ((r :: rows).filter (inCell i j)).filterMap ARow.gain =
      (rows.filter (inCell i j)).filterMap ARow.gain := by
  cases hp : inCell i j r with
  | false => rw [List.filter_cons_of_neg (by rw [hp]; simp)]
  | true =>
    rcases h with hg | hall
    · rw [List.filter_cons_of_pos (by rw [hp])]
      simp [List.filterMap_cons, hg]
    · rw [hall i j] at hp
      cases hp

lemma mkCell_skip {r : ARow} (h : r.gain = none ∨ ∀ i j, inCell i j r = false)
    (tk : String) (pB : List ℚ) (rows₁ rows₂ : List ARow) (i : ℕ) (j : FGLabel) :
    mkCell tk pB (rows₁ ++ r :: rows₂) i j = mkCell tk pB (rows₁ ++ rows₂) i j := by
  rw [mkCell, mkCell, List.filter_append, List.filter_append, List.filterMap_append,
    List.filterMap_append, gain_filter_skip h]

lemma mkGrid_skip {r : ARow} (h : r.gain = none ∨ ∀ i j, inCell i j r = false)
    (tk : String) (pB : List ℚ) (rows₁ rows₂ : List ARow) :
    mkGrid tk pB (rows₁ ++ r :: rows₂) = mkGrid tk pB (rows₁ ++ rows₂) := by
  rw [mkGrid, mkGrid]
  have hc : ∀ i j, mkCell tk pB (rows₁ ++ r :: rows₂) i j = mkCell tk pB (rows₁ ++ rows₂) i j :=
    mkCell_skip h tk pB rows₁ rows₂
  simp only [hc]

lemma analyze_eq_of (df : List Obs) (tk : String) (td lb aw nb : Int)
    (h2 : ¬ (tailN lb (filteredSorted df tk td)).length < 2) {pB : List ℚ}
    (hlin : linspace (listMin ((tailN lb (filteredSorted df tk td)).map Obs.close))
      (listMax ((tailN lb (filteredSorted df tk td)).map Obs.close)) (nb + 1) = Except.ok pB)
    (hchk : checkBins pB = Except.ok ()) :
    analyze_combined_performance df tk td lb aw nb =
      Except.ok (mkGrid tk pB (mkARows pB (tailN aw (filteredSorted df tk td)))) := by
  rw [analyze_combined_performance]
  simp only [if_neg h2, hlin, hchk]

lemma analyze_eq_error_of (df : List Obs) (tk : String) (td lb aw nb : Int)
    (h2 : ¬ (tailN lb (filteredSorted df tk td)).length < 2) {pB : List ℚ} {e : String}
    (hlin : linspace (listMin ((tailN lb (filteredSorted df tk td)).map Obs.close))
      (listMax ((tailN lb (filteredSorted df tk td)).map Obs.close)) (nb + 1) = Except.ok pB)
    (hchk : checkBins pB = Except.error e) :
    analyze_combined_performance df tk td lb aw nb = Except.error e := by
  rw [analyze_combined_performance]
  simp only [if_neg h2, hlin, hchk]

lemma cutIdx_pair (a v : ℚ) : cutIdx [a, a] v = if v = a then some 0 else none := by
  rw [cutIdx]
  by_cases h : v < a
  · rw [if_pos h, if_neg (by intro he; subst he; exact lt_irrefl v h)]
  · rw [if_neg h, cutGo]
    by_cases h2 : v ≤ a
    · rw [if_pos h2, if_pos (le_antisymm h2 (not_lt.mp h))]
    · rw [if_neg h2, if_neg (fun he => h2 (le_of_eq he))]
      rfl

lemma binEdges_mem_le {a b : ℚ} {m : ℕ} (hab : a ≤ b) (hm : 1 ≤ m) :
    ∀ x ∈ binEdges a b m, x ≤ b := by
  intro x hx
  rw [binEdges, List.mem_map] at hx
  obtain ⟨i, hi, rfl⟩ := hx
  rw [List.mem_range] at hi
  have hm0 : (m : ℚ) ≠ 0 := Nat.cast_ne_zero.mpr (by omega)
  have hmpos : (0 : ℚ) < (m : ℚ) := by exact_mod_cast (by omega : 0 < m)
  have hiq : (i : ℚ) ≤ (m : ℚ) := by exact_mod_cast (by omega : i ≤ m)
  have hq : (0 : ℚ) ≤ (b - a) / (m : ℚ) := div_nonneg (by linarith) (by linarith)
  have : (i : ℚ) * ((b - a) / (m : ℚ)) ≤ (m : ℚ) * ((b - a) / (m : ℚ)) :=
    mul_le_mul_of_nonneg_right hiq hq
  have he : (m : ℚ) * ((b - a) / (m : ℚ)) = b - a := by field_simp
  have : (i : ℚ) * (b - a) / (m : ℚ) ≤ b - a := by
    calc (i : ℚ) * (b - a) / (m : ℚ) = (i : ℚ) * ((b - a) / (m : ℚ)) := by ring
      _ ≤ (m : ℚ) * ((b - a) / (m : ℚ)) := mul_le_mul_of_nonneg_right hiq hq
      _ = b - a := he
  linarith

lemma nextDayGains_nil : nextDayGains [] = [] := rfl

lemma nextDayGains_single (c : ℚ) : nextDayGains [c] = [none] := rfl

lemma nextDayGains_cons₂ (c c' : ℚ) (cs : List ℚ) :
    nextDayGains (c :: c' :: cs) = some (c' - c) :: nextDayGains (c' :: cs) := by
  rw [nextDayGains, nextDayGains, shiftNeg1, shiftNeg1, List.map_cons, List.cons_append,
    List.zipWith_cons_cons]
  rfl

lemma nextDayGains_getD {closes : List ℚ} :
    ∀ k, k + 1 < closes.length →
      (nextDayGains closes).getD k none = some (closes.getD (k + 1) 0 - closes.getD k 0) := by
  induction closes with
  | nil => intro k hk; simp at hk
  | cons c rest ih =>
    intro k hk
    cases rest with
    | nil => simp at hk
    | cons c' cs =>
      rw [nextDayGains_cons₂]
      cases k with
      | zero => rfl
      | succ k2 =>
        rw [List.getD_cons_succ, List.getD_cons_succ, List.getD_cons_succ]
        exact ih k2 (by simp at hk ⊢; omega)

lemma nextDayGains_last {closes : List ℚ} (h : closes ≠ []) :
    (nextDayGains closes).getD (closes.length - 1) none = none := by
  induction closes with
  | nil => exact absurd rfl h
  | cons c rest ih =>
    cases rest with
    | nil => rfl
    | cons c' cs =>
      rw [nextDayGains_cons₂]
      have hl : (c :: c' :: cs).length - 1 = (c' :: cs).length - 1 + 1 := by
        simp only [List.length_cons]
        omega
      rw [hl, List.getD_cons_succ]
      exact ih (by simp)

lemma scenario_eval :
    analyze_combined_performance specSeries "X" 4 5 5 2 = Except.ok scenarioGrid := by
  have hcl : (tailN 5 (filteredSorted specSeries "X" 4)).map Obs.close =
      [100, 102, 98, 101, 103] := by decide
  have hlin : linspace (listMin ((tailN 5 (filteredSorted specSeries "X" 4)).map Obs.close))
      (listMax ((tailN 5 (filteredSorted specSeries "X" 4)).map Obs.close)) (2 + 1) =
      Except.ok scenarioBins := by
    rw [hcl, (by decide : listMin [(100:ℚ), 102, 98, 101, 103] = 98),
      (by decide : listMax [(100:ℚ), 102, 98, 101, 103] = 103)]
    norm_num [linspace, scenarioBins, (by decide : Int.toNat 3 = 3),
      (by decide : List.range 3 = [0, 1, 2])]
  have hchk : checkBins scenarioBins = Except.ok () := by
    norm_num [checkBins, binsMonotonic, hasDupEdge, scenarioBins]
  have hA := analyze_eq_of specSeries "X" 4 5 5 2 (by decide) hlin hchk
  rw [(by decide : tailN 5 (filteredSorted specSeries "X" 4) = specSeries)] at hA
  have hAR : mkARows scenarioBins specSeries = scenarioARows := by
    norm_num [mkARows, nextDayGains, shiftNeg1, cutIdx, cutGo, fgCut, fgBins, fgLabelOf,
      specSeries, scenarioBins, scenarioARows]
  rw [hAR] at hA
  rw [hA]
  have hc00 : mkCell "X" scenarioBins scenarioARows 0 FGLabel.Fear =
      ⟨0, 98, 201/2, FGLabel.Fear, some 2, 1, "X"⟩ := by
    rw [mkCell, (by decide : List.filter (inCell 0 FGLabel.Fear) scenarioARows =
      [⟨100, some 2, some 0, some FGLabel.Fear⟩])]
    norm_num [List.filterMap_cons, scenarioBins]
  have hc01 : mkCell "X" scenarioBins scenarioARows 0 FGLabel.Neutral =
      ⟨0, 98, 201/2, FGLabel.Neutral, some 3, 1, "X"⟩ := by
    rw [mkCell, (by decide : List.filter (inCell 0 FGLabel.Neutral) scenarioARows =
      [⟨98, some 3, some 0, some FGLabel.Neutral⟩])]
    norm_num [List.filterMap_cons, scenarioBins]
  have hc02 : mkCell "X" scenarioBins scenarioARows 0 FGLabel.Greed =
      ⟨0, 98, 201/2, FGLabel.Greed, none, 0, "X"⟩ := by
    rw [mkCell, (by decide : List.filter (inCell 0 FGLabel.Greed) scenarioARows = [])]
    norm_num [scenarioBins]
  have hc10 : mkCell "X" scenarioBins scenarioARows 1 FGLabel.Fear =
      ⟨1, 201/2, 103, FGLabel.Fear, none, 0, "X"⟩ := by
    rw [mkCell, (by decide : List.filter (inCell 1 FGLabel.Fear) scenarioARows = [])]
    norm_num [scenarioBins]
  have hc11 : mkCell "X" scenarioBins scenarioARows 1 FGLabel.Neutral =
      ⟨1, 201/2, 103, FGLabel.Neutral, some (-4), 1, "X"⟩ := by
    rw [mkCell, (by decide : List.filter (inCell 1 FGLabel.Neutral) scenarioARows =
      [⟨102, some (-4), some 1, some FGLabel.Neutral⟩])]
    norm_num [List.filterMap_cons, scenarioBins]
  have hc12 : mkCell "X" scenarioBins scenarioARows 1 FGLabel.Greed =
      ⟨1, 201/2, 103, FGLabel.Greed, some 2, 1, "X"⟩ := by
    rw [mkCell, (by decide : List.filter (inCell 1 FGLabel.Greed) scenarioARows =
      [⟨101, some 2, some 1, some FGLabel.Greed⟩])]
    norm_num [List.filterMap_cons, scenarioBins]
  rw [mkGrid, (by decide : scenarioBins.length - 1 = 2), (by decide : List.range 2 = [0, 1])]
  simp only [fgLabels, List.flatMap_cons, List.flatMap_nil, List.map_cons, List.map_nil,
    List.append_nil, List.cons_append, List.nil_append]
  rw [hc00, hc01, hc02, hc10, hc11, hc12]
  rfl

/-- C1 (counterexample): on the spec's concrete 5-day scenario the aggregator
does not return the grid the spec states (the spec misplaces close 102 in the
low bracket and labels sentiment 60 as Greed). -/
theorem C1_counterexample :
    analyze_combined_performance specSeries "X" 4 5 5 2 ≠ Except.ok specClaimedGrid := by
  rw [scenario_eval]
  intro h
  have h2 := Except.ok.inj h
  rw [scenarioGrid, specClaimedGrid] at h2
  simp only [List.cons.injEq, Cell.mk.injEq, Option.some.injEq] at h2
  have h3 : (3 : ℚ) = -4 := h2.2.1.2.2.2.2.1
  norm_num at h3

/-- C1 (amended): on the concrete 5-day scenario (closes [100,102,98,101,103],
sentiment [20,40,60,80,NaN], lookback 5, analysis 5, 2 brackets) the edges are
[98, 100.5, 103] and the next-day gains [2,-4,3,2], but the sentiment brackets
of days 0-3 are [Fear, Neutral, Neutral, Greed] (60 ≤ 66.67 is Neutral) and
the cells are ([98,100.5], Fear) mean 2 count 1, ([98,100.5], Neutral) mean 3
count 1 (day 2: close 98, gain 3), ((100.5,103], Neutral) mean -4 count 1
(day 1: close 102, gain -4), ((100.5,103], Greed) mean 2 count 1 (day 3),
every other cell count 0. -/
theorem C1_amended_grid :
    analyze_combined_performance specSeries "X" 4 5 5 2 = Except.ok scenarioGrid :=
  scenario_eval

/-- C4 (counterexample): a call with `lookback_window = 1` (< 2) on a rich,
valid series does not fail fast with a configuration error — it silently
returns the empty no-data result. -/
theorem C4_counterexample :
    analyze_combined_performance specSeries "X" 4 1 5 2 = Except.ok [] := by
  decide

/-- C4 (amended): the function performs no parameter validation; every call
with `0 ≤ lookback_window < 2` silently returns the empty result (the
`len(subset_200) < 2` guard swallows it), whatever the data. -/
theorem C4_amended (df : List Obs) (tk : String) (td : Int) (lb : Int)
    (h0 : 0 ≤ lb) (h2 : lb < 2) (aw nb : Int) :
    analyze_combined_performance df tk td lb aw nb = Except.ok [] := by
  rw [analyze_combined_performance]
  rw [if_pos (tailN_length_lt_two h0 h2 _)]

/-- Witness for `C4_amended` at the concrete scenario series with
`lookback_window = 1`. -/
theorem C4_amended_witness :
    analyze_combined_performance specSeries "X" 4 1 5 2 = Except.ok [] :=
  C4_amended specSeries "X" 4 1 (by decide) (by decide) 5 2

lemma short_eval :
    analyze_combined_performance shortSeries "X" 5 5 5 2 = Except.ok shortGrid := by
  have hcl : (tailN 5 (filteredSorted shortSeries "X" 5)).map Obs.close = [100, 102] := by
    decide
  have hlin : linspace (listMin ((tailN 5 (filteredSorted shortSeries "X" 5)).map Obs.close))
      (listMax ((tailN 5 (filteredSorted shortSeries "X" 5)).map Obs.close)) (2 + 1) =
      Except.ok shortBins := by
    rw [hcl, (by decide : listMin [(100:ℚ), 102] = 100),
      (by decide : listMax [(100:ℚ), 102] = 102)]
    norm_num [linspace, shortBins, (by decide : Int.toNat 3 = 3),
      (by decide : List.range 3 = [0, 1, 2])]
  have hchk : checkBins shortBins = Except.ok () := by
    norm_num [checkBins, binsMonotonic, hasDupEdge, shortBins]
  have hA := analyze_eq_of shortSeries "X" 5 5 5 2 (by decide) hlin hchk
  rw [(by decide : tailN 5 (filteredSorted shortSeries "X" 5) = shortSeries)] at hA
  have hAR : mkARows shortBins shortSeries = shortARows := by
    norm_num [mkARows, nextDayGains, shiftNeg1, cutIdx, cutGo, fgCut, fgBins, fgLabelOf,
      shortSeries, shortBins, shortARows]
  rw [hAR] at hA
  rw [hA]
  have hc01 : mkCell "X" shortBins shortARows 0 FGLabel.Neutral =
      ⟨0, 100, 101, FGLabel.Neutral, some 2, 1, "X"⟩ := by
    rw [mkCell, (by decide : List.filter (inCell 0 FGLabel.Neutral) shortARows =
      [⟨100, some 2, some 0, some FGLabel.Neutral⟩])]
    norm_num [List.filterMap_cons, shortBins]
  rw [mkGrid, (by decide : shortBins.length - 1 = 2), (by decide : List.range 2 = [0, 1])]
  simp only [fgLabels, List.flatMap_cons, List.flatMap_nil, List.map_cons, List.map_nil,
    List.append_nil, List.cons_append, List.nil_append]
  rw [hc01,
    (by decide : mkCell "X" shortBins shortARows 0 FGLabel.Fear =
      ⟨0, 100, 101, FGLabel.Fear, none, 0, "X"⟩),
    (by decide : mkCell "X" shortBins shortARows 0 FGLabel.Greed =
      ⟨0, 100, 101, FGLabel.Greed, none, 0, "X"⟩),
    (by decide : mkCell "X" shortBins shortARows 1 FGLabel.Fear =
      ⟨1, 101, 102, FGLabel.Fear, none, 0, "X"⟩),
    (by decide : mkCell "X" shortBins shortARows 1 FGLabel.Neutral =
      ⟨1, 101, 102, FGLabel.Neutral, none, 0, "X"⟩),
    (by decide : mkCell "X" shortBins shortARows 1 FGLabel.Greed =
      ⟨1, 101, 102, FGLabel.Greed, none, 0, "X"⟩)]
  rfl

/-- C3 (counterexample): target date 5 is not present in `shortSeries` (dated
0 and 1), yet the call returns a fully computed 6-cell grid, not the empty
no-data sentinel. -/
theorem C3_counterexample :
    analyze_combined_performance shortSeries "X" 5 5 5 2 = Except.ok shortGrid ∧
      shortGrid ≠ [] := by
  refine ⟨short_eval, by decide⟩

lemma c5_eval :
    analyze_combined_performance specSeries "X" 4 2 5 2 = Except.ok c5Grid := by
  have hcl : (tailN 2 (filteredSorted specSeries "X" 4)).map Obs.close = [101, 103] := by
    decide
  have hlin : linspace (listMin ((tailN 2 (filteredSorted specSeries "X" 4)).map Obs.close))
      (listMax ((tailN 2 (filteredSorted specSeries "X" 4)).map Obs.close)) (2 + 1) =
      Except.ok c5Bins := by
    rw [hcl, (by decide : listMin [(101:ℚ), 103] = 101),
      (by decide : listMax [(101:ℚ), 103] = 103)]
    norm_num [linspace, c5Bins, (by decide : Int.toNat 3 = 3),
      (by decide : List.range 3 = [0, 1, 2])]
  have hchk : checkBins c5Bins = Except.ok () := by
    norm_num [checkBins, binsMonotonic, hasDupEdge, c5Bins]
  have hA := analyze_eq_of specSeries "X" 4 2 5 2 (by decide) hlin hchk
  rw [(by decide : tailN 5 (filteredSorted specSeries "X" 4) = specSeries)] at hA
  have hAR : mkARows c5Bins specSeries = c5ARows := by
    norm_num [mkARows, nextDayGains, shiftNeg1, cutIdx, cutGo, fgCut, fgBins, fgLabelOf,
      specSeries, c5Bins, c5ARows]
  rw [hAR] at hA
  rw [hA]
  have hc01 : mkCell "X" c5Bins c5ARows 0 FGLabel.Neutral =
      ⟨0, 101, 102, FGLabel.Neutral, some (-4), 1, "X"⟩ := by
    rw [mkCell, (by decide : List.filter (inCell 0 FGLabel.Neutral) c5ARows =
      [⟨102, some (-4), some 0, some FGLabel.Neutral⟩])]
    norm_num [List.filterMap_cons, c5Bins]
  have hc02 : mkCell "X" c5Bins c5ARows 0 FGLabel.Greed =
      ⟨0, 101, 102, FGLabel.Greed, some 2, 1, "X"⟩ := by
    rw [mkCell, (by decide : List.filter (inCell 0 FGLabel.Greed) c5ARows =
      [⟨101, some 2, some 0, some FGLabel.Greed⟩])]
    norm_num [List.filterMap_cons, c5Bins]
  rw [mkGrid, (by decide : c5Bins.length - 1 = 2), (by decide : List.range 2 = [0, 1])]
  simp only [fgLabels, List.flatMap_cons, List.flatMap_nil, List.map_cons, List.map_nil,
    List.append_nil, List.cons_append, List.nil_append]
  rw [hc01, hc02,
    (by decide : mkCell "X" c5Bins c5ARows 0 FGLabel.Fear =
      ⟨0, 101, 102, FGLabel.Fear, none, 0, "X"⟩),
    (by decide : mkCell "X" c5Bins c5ARows 1 FGLabel.Fear =
      ⟨1, 102, 103, FGLabel.Fear, none, 0, "X"⟩),
    (by decide : mkCell "X" c5Bins c5ARows 1 FGLabel.Neutral =
      ⟨1, 102, 103, FGLabel.Neutral, none, 0, "X"⟩),
    (by decide : mkCell "X" c5Bins c5ARows 1 FGLabel.Greed =
      ⟨1, 102, 103, FGLabel.Greed, none, 0, "X"⟩)]
  rfl

/-- C5 (counterexample): with `lookback_window = 2 < analysis_window = 5` on
the scenario series, the analysis closes 100 and 98 fall outside the lookback
range [101,103] and are dropped, so the total count is 2 while the number of
non-last analysis observations with defined sentiment is 4. -/
theorem C5_counterexample :
    analyze_combined_performance specSeries "X" 4 2 5 2 = Except.ok c5Grid ∧
      sumCounts c5Grid = 2 ∧
      (tailN 5 (filteredSorted specSeries "X" 4)).dropLast.countP
        (fun o => o.fearGreed.isSome) = 4 ∧
      sumCounts c5Grid ≠ (tailN 5 (filteredSorted specSeries "X" 4)).dropLast.countP
        (fun o => o.fearGreed.isSome) := by
  refine ⟨c5_eval, by decide, by decide, by decide⟩

lemma flat_eval :
    analyze_combined_performance flatSeries "X" 2 5 5 2 =
      Except.error "Bin edges must be unique" := by
  have hcl : (tailN 5 (filteredSorted flatSeries "X" 2)).map Obs.close = [100, 100, 100] := by
    decide
  have hlin : linspace (listMin ((tailN 5 (filteredSorted flatSeries "X" 2)).map Obs.close))
      (listMax ((tailN 5 (filteredSorted flatSeries "X" 2)).map Obs.close)) (2 + 1) =
      Except.ok [100, 100, 100] := by
    rw [hcl, (by decide : listMin [(100:ℚ), 100, 100] = 100),
      (by decide : listMax [(100:ℚ), 100, 100] = 100)]
    norm_num [linspace, (by decide : Int.toNat 3 = 3), (by decide : List.range 3 = [0, 1, 2])]
  have hchk : checkBins [(100:ℚ), 100, 100] = Except.error "Bin edges must be unique" := by
    norm_num [checkBins, binsMonotonic, hasDupEdge]
  exact analyze_eq_error_of flatSeries "X" 2 5 5 2 (by decide) hlin hchk

/-- C2 (counterexample): on a 3-day constant-price series (all closes 100, at
least 2 observations in the lookback window) the call with `num_brackets = 2`
does not complete — `pd.cut` raises `Bin edges must be unique` on the
duplicate `np.linspace` edges. -/
theorem C2_counterexample :
    analyze_combined_performance flatSeries "X" 2 5 5 2 =
      Except.error "Bin edges must be unique" :=
  flat_eval

/-- C2 (amended): when every close in the trailing lookback window is equal
and at least 2 observations exist there, a call with `num_brackets ≥ 2`
raises the duplicate-bin-edges error instead of completing; only with
`num_brackets = 1` does pandas' two-edge exemption apply, the call succeed,
and every price equal to the constant close fall into the single degenerate
bracket (any other value into none). -/
theorem C2_amended (df : List Obs) (tk : String) (td lb aw nb : Int)
    (h2 : 2 ≤ (tailN lb (filteredSorted df tk td)).length)
    (heq : ∀ x ∈ (tailN lb (filteredSorted df tk td)).map Obs.close,
      ∀ y ∈ (tailN lb (filteredSorted df tk td)).map Obs.close, x = y) :
    (2 ≤ nb → analyze_combined_performance df tk td lb aw nb =
      Except.error "Bin edges must be unique") ∧
    (nb = 1 → analyze_combined_performance df tk td lb aw nb =
      Except.ok (mkGrid tk
        [listMin ((tailN lb (filteredSorted df tk td)).map Obs.close),
         listMin ((tailN lb (filteredSorted df tk td)).map Obs.close)]
        (mkARows
          [listMin ((tailN lb (filteredSorted df tk td)).map Obs.close),
           listMin ((tailN lb (filteredSorted df tk td)).map Obs.close)]
          (tailN aw (filteredSorted df tk td)))) ∧
      ∀ v : ℚ, cutIdx
        [listMin ((tailN lb (filteredSorted df tk td)).map Obs.close),
         listMin ((tailN lb (filteredSorted df tk td)).map Obs.close)] v =
        if v = listMin ((tailN lb (filteredSorted df tk td)).map Obs.close) then some 0
        else none) := by
  have hne : (tailN lb (filteredSorted df tk td)).map Obs.close ≠ [] := by
    intro hnil
    have hlen := congrArg List.length hnil
    rw [List.length_map, List.length_nil] at hlen
    omega
  have hminmax : listMin ((tailN lb (filteredSorted df tk td)).map Obs.close) =
      listMax ((tailN lb (filteredSorted df tk td)).map Obs.close) :=
    heq _ (listMin_mem _ hne) _ (listMax_mem _ hne)
  constructor
  · intro hnb
    have hlin := linspace_ok (listMin ((tailN lb (filteredSorted df tk td)).map Obs.close))
      (listMax ((tailN lb (filteredSorted df tk td)).map Obs.close)) nb (by omega)
    have hbins : binEdges (listMin ((tailN lb (filteredSorted df tk td)).map Obs.close))
        (listMax ((tailN lb (filteredSorted df tk td)).map Obs.close)) nb.toNat =
        List.replicate (nb.toNat + 1)
          (listMin ((tailN lb (filteredSorted df tk td)).map Obs.close)) := by
      rw [← hminmax, binEdges_const]
    rw [hbins] at hlin
    exact analyze_eq_error_of df tk td lb aw nb (by omega) hlin
      (checkBins_replicate (by omega))
  · intro h1
    subst h1
    have hlin := linspace_ok (listMin ((tailN lb (filteredSorted df tk td)).map Obs.close))
      (listMax ((tailN lb (filteredSorted df tk td)).map Obs.close)) 1 (by omega)
    have hbins : binEdges (listMin ((tailN lb (filteredSorted df tk td)).map Obs.close))
        (listMax ((tailN lb (filteredSorted df tk td)).map Obs.close)) (1 : ℤ).toNat =
        [listMin ((tailN lb (filteredSorted df tk td)).map Obs.close),
         listMin ((tailN lb (filteredSorted df tk td)).map Obs.close)] := by
      rw [← hminmax, binEdges_const]
      rfl
    rw [hbins] at hlin
    exact ⟨analyze_eq_of df tk td lb aw 1 (by omega) hlin (checkBins_pair _),
      cutIdx_pair _⟩

/-- Witness for `C2_amended` at the 3-day constant-price series: the
`num_brackets = 2` call raises the duplicate-edges error. -/
theorem C2_amended_witness :
    analyze_combined_performance flatSeries "X" 2 5 5 2 =
      Except.error "Bin edges must be unique" :=
  (C2_amended flatSeries "X" 2 5 5 2 (by decide) (by decide)).1 (by norm_num)

/-- C3 (amended): for `num_brackets ≥ 1`, the call returns the empty-frame
sentinel exactly when fewer than 2 observations are available in the trailing
lookback window of the rows at or before `target_date` — `target_date` merely
not being a trading day in the series does not by itself give the empty
result. -/
theorem C3_amended (df : List Obs) (tk : String) (td lb aw nb : Int) (hnb : 1 ≤ nb) :
    analyze_combined_performance df tk td lb aw nb = Except.ok [] ↔
      (tailN lb (filteredSorted df tk td)).length < 2 := by
  constructor
  · intro h
    by_contra hge
    have hlin := linspace_ok (listMin ((tailN lb (filteredSorted df tk td)).map Obs.close))
      (listMax ((tailN lb (filteredSorted df tk td)).map Obs.close)) nb hnb
    rcases hchk : checkBins (binEdges
        (listMin ((tailN lb (filteredSorted df tk td)).map Obs.close))
        (listMax ((tailN lb (filteredSorted df tk td)).map Obs.close)) nb.toNat)
      with e | u
    · have hE := analyze_eq_error_of df tk td lb aw nb hge hlin hchk
      rw [hE] at h
      cases h
    · cases u
      have hO := analyze_eq_of df tk td lb aw nb hge hlin hchk
      rw [hO] at h
      have hg := Except.ok.inj h
      have hlen := congrArg List.length hg
      rw [mkGrid_length, binEdges_length] at hlen
      simp at hlen
      omega
  · intro h
    rw [analyze_combined_performance]
    simp only [if_pos h]

/-- Witness for `C3_amended`: on `shortSeries` with target date 5 the result
is non-empty (its lookback window holds the 2 available rows), and on the
same series with `lookback_window = 1` the result is empty. -/
theorem C3_amended_witness :
    (¬ analyze_combined_performance shortSeries "X" 5 5 5 2 = Except.ok []) ∧
      analyze_combined_performance shortSeries "X" 5 1 5 2 = Except.ok [] := by
  constructor
  · rw [C3_amended shortSeries "X" 5 5 5 2 (by norm_num)]
    decide
  · rw [C3_amended shortSeries "X" 5 1 5 2 (by norm_num)]
    decide

/-- C5 (amended): count conservation holds when the analysis window is
contained in the lookback window (`0 ≤ analysis_window ≤ lookback_window`) and
sentiment scores are in [0,100]: the total cell count equals the number of
non-last analysis observations with a defined sentiment, and is at most the
analysis length minus 1. (Without the containment, analysis closes outside
the lookback range are dropped and the equality fails — see the
counterexample.) -/
theorem C5_amended (df : List Obs) (tk : String) (td lb aw nb : Int)
    (haw : 0 ≤ aw) (hawlb : aw ≤ lb) (hnb : 1 ≤ nb)
    (h2 : 2 ≤ (tailN lb (filteredSorted df tk td)).length)
    (hmm : listMin ((tailN lb (filteredSorted df tk td)).map Obs.close) <
      listMax ((tailN lb (filteredSorted df tk td)).map Obs.close))
    (hrange : ∀ o ∈ df, ∀ s : ℚ, o.fearGreed = some s → 0 ≤ s ∧ s ≤ 100) :
    ∃ G, analyze_combined_performance df tk td lb aw nb = Except.ok G ∧
      sumCounts G = (tailN aw (filteredSorted df tk td)).dropLast.countP
        (fun o => o.fearGreed.isSome) ∧
      sumCounts G ≤ (tailN aw (filteredSorted df tk td)).length - 1 := by
  have hm1 : 1 ≤ nb.toNat := by omega
  have hlin := linspace_ok (listMin ((tailN lb (filteredSorted df tk td)).map Obs.close))
    (listMax ((tailN lb (filteredSorted df tk td)).map Obs.close)) nb hnb
  have hpw := binEdges_pairwise_lt hmm hm1
  have hchk := checkBins_ok hpw
  have hEq : sumCounts (mkGrid tk
      (binEdges (listMin ((tailN lb (filteredSorted df tk td)).map Obs.close))
        (listMax ((tailN lb (filteredSorted df tk td)).map Obs.close)) nb.toNat)
      (mkARows
        (binEdges (listMin ((tailN lb (filteredSorted df tk td)).map Obs.close))
          (listMax ((tailN lb (filteredSorted df tk td)).map Obs.close)) nb.toNat)
        (tailN aw (filteredSorted df tk td)))) =
      (tailN aw (filteredSorted df tk td)).dropLast.countP
        (fun o => o.fearGreed.isSome) := by
    rw [sumCounts_mkGrid, binEdges_length]
    have hm : nb.toNat + 1 - 1 = nb.toNat := by omega
    rw [hm]
    apply dropLast_countP_fg
    · intro o ho
      have hoL : o ∈ tailN lb (filteredSorted df tk td) :=
        tailN_subset_tailN haw hawlb _ ho
      have hocl : o.close ∈ (tailN lb (filteredSorted df tk td)).map Obs.close :=
        List.mem_map_of_mem _ hoL
      have hlo : listMin ((tailN lb (filteredSorted df tk td)).map Obs.close) ≤ o.close :=
        listMin_le _ _ hocl
      have hhi : o.close ≤ listMax ((tailN lb (filteredSorted df tk td)).map Obs.close) :=
        le_listMax _ _ hocl
      have hlen2 : 2 ≤ (binEdges (listMin ((tailN lb (filteredSorted df tk td)).map Obs.close))
          (listMax ((tailN lb (filteredSorted df tk td)).map Obs.close)) nb.toNat).length := by
        rw [binEdges_length]; omega
      have hgd0 : (binEdges (listMin ((tailN lb (filteredSorted df tk td)).map Obs.close))
          (listMax ((tailN lb (filteredSorted df tk td)).map Obs.close)) nb.toNat).getD 0 0 ≤
          o.close := by
        rw [binEdges_getD_zero]; exact hlo
      have hgdl : o.close ≤
          (binEdges (listMin ((tailN lb (filteredSorted df tk td)).map Obs.close))
            (listMax ((tailN lb (filteredSorted df tk td)).map Obs.close)) nb.toNat).getD
            ((binEdges (listMin ((tailN lb (filteredSorted df tk td)).map Obs.close))
              (listMax ((tailN lb (filteredSorted df tk td)).map Obs.close)) nb.toNat).length
              - 1) 0 := by
        rw [binEdges_length]
        have he : nb.toNat + 1 - 1 = nb.toNat := by omega
        rw [he, binEdges_getD_last hm1]
        exact hhi
      obtain ⟨i, hcut, hilen⟩ := cutIdx_isSome_of_between hlen2 hgd0 hgdl
      refine ⟨i, hcut, ?_⟩
      rw [binEdges_length] at hilen
      omega
    · intro o ho
      have hodf : o ∈ df := mem_filteredSorted (tailN_subset aw _ ho)
      cases hfg : o.fearGreed with
      | none => rfl
      | some s =>
        obtain ⟨hs0, hs1⟩ := hrange o hodf s hfg
        rw [fgCut_isSome_of_range hs0 hs1]
        rfl
  refine ⟨_, analyze_eq_of df tk td lb aw nb (by omega) hlin hchk, hEq, ?_⟩
  rw [hEq, ← List.length_dropLast]
  exact List.countP_le_length _

/-- Witness for `C5_amended` at the scenario series with
`lookback_window = analysis_window = 5`. -/
theorem C5_amended_witness :
    ∃ G, analyze_combined_performance specSeries "X" 4 5 5 2 = Except.ok G ∧
      sumCounts G = (tailN 5 (filteredSorted specSeries "X" 4)).dropLast.countP
        (fun o => o.fearGreed.isSome) ∧
      sumCounts G ≤ (tailN 5 (filteredSorted specSeries "X" 4)).length - 1 := by
  apply C5_amended specSeries "X" 4 5 5 2 (by norm_num) (by norm_num) (by norm_num) (by decide)
  · rw [(by decide : (tailN 5 (filteredSorted specSeries "X" 4)).map Obs.close =
      [100, 102, 98, 101, 103]),
      (by decide : listMin [(100:ℚ), 102, 98, 101, 103] = 98),
      (by decide : listMax [(100:ℚ), 102, 98, 101, 103] = 103)]
    norm_num
  · intro o ho s hs
    simp only [specSeries, List.mem_cons, List.not_mem_nil, or_false] at ho
    rcases ho with rfl | rfl | rfl | rfl | rfl
    · obtain rfl := Option.some.inj hs; exact ⟨by norm_num, by norm_num⟩
    · obtain rfl := Option.some.inj hs; exact ⟨by norm_num, by norm_num⟩
    · obtain rfl := Option.some.inj hs; exact ⟨by norm_num, by norm_num⟩
    · obtain rfl := Option.some.inj hs; exact ⟨by norm_num, by norm_num⟩
    · exact absurd hs (by simp)

/-- C6: whenever the call succeeds with data (≥ 2 lookback observations, a
non-degenerate price range, `num_brackets ≥ 1`), the grid has exactly
`num_brackets * 3` cells — exactly one per (price bracket, sentiment bracket)
pair — and an empty cell carries `count = 0` with `mean` undefined (`none`),
distinguishable from a true zero mean; no sentiment hypothesis is needed, so
this covers the all-sentiment-missing input. -/
theorem C6_grid_shape (df : List Obs) (tk : String) (td lb aw nb : Int) (hnb : 1 ≤ nb)
    (h2 : 2 ≤ (tailN lb (filteredSorted df tk td)).length)
    (hmm : listMin ((tailN lb (filteredSorted df tk td)).map Obs.close) <
      listMax ((tailN lb (filteredSorted df tk td)).map Obs.close)) :
    ∃ G, analyze_combined_performance df tk td lb aw nb = Except.ok G ∧
      G.length = nb.toNat * 3 ∧
      (∀ (i : ℕ) (j : FGLabel), G.countP (fun c => c.pIdx == i && c.fg == j) =
        if i < nb.toNat then 1 else 0) ∧
      ∀ c ∈ G, (c.count = 0 ↔ c.mean = none) := by
  have hm1 : 1 ≤ nb.toNat := by omega
  have hlin := linspace_ok (listMin ((tailN lb (filteredSorted df tk td)).map Obs.close))
    (listMax ((tailN lb (filteredSorted df tk td)).map Obs.close)) nb hnb
  have hpw := binEdges_pairwise_lt hmm hm1
  have hchk := checkBins_ok hpw
  refine ⟨_, analyze_eq_of df tk td lb aw nb (by omega) hlin hchk, ?_, ?_, ?_⟩
  · rw [mkGrid_length, binEdges_length]
    omega
  · intro i j
    rw [mkGrid_key_count, binEdges_length]
    have hm : nb.toNat + 1 - 1 = nb.toNat := by omega
    rw [hm]
  · intro c hc
    rw [mkGrid, List.mem_flatMap] at hc
    obtain ⟨i, _, hc⟩ := hc
    rw [List.mem_map] at hc
    obtain ⟨j, _, rfl⟩ := hc
    rw [mkCell_count, mkCell_mean]
    constructor
    · intro h0
      rw [if_pos h0]
    · intro h0
      by_contra hne
      rw [if_neg hne] at h0
      cases h0

/-- Witness for `C6_grid_shape` at the all-sentiment-missing 3-day series
with 2 brackets. -/
theorem C6_grid_shape_witness :
    ∃ G, analyze_combined_performance noFgSeries "X" 2 5 5 2 = Except.ok G ∧
      G.length = (2 : ℤ).toNat * 3 ∧
      (∀ (i : ℕ) (j : FGLabel), G.countP (fun c => c.pIdx == i && c.fg == j) =
        if i < (2 : ℤ).toNat then 1 else 0) ∧
      ∀ c ∈ G, (c.count = 0 ↔ c.mean = none) := by
  apply C6_grid_shape noFgSeries "X" 2 5 5 2 (by norm_num) (by decide)
  rw [(by decide : (tailN 5 (filteredSorted noFgSeries "X" 2)).map Obs.close =
    [100, 102, 101]),
    (by decide : listMin [(100:ℚ), 102, 101] = 100),
    (by decide : listMax [(100:ℚ), 102, 101] = 102)]
  norm_num

/-- C7: the price bin edges are exactly `num_brackets + 1` linear
interpolants between the lookback window's min and max close (equal-width
brackets), and every value within [min, max] is assigned by `pd.cut` to
exactly one bracket — the returned bracket satisfies the half-open interval
semantics (first bracket closed below, the rest open below, all closed
above), and no other bracket contains the value. -/
theorem C7_bracket_assignment (df : List Obs) (tk : String) (td lb nb : Int) (hnb : 1 ≤ nb)
    (hmm : listMin ((tailN lb (filteredSorted df tk td)).map Obs.close) <
      listMax ((tailN lb (filteredSorted df tk td)).map Obs.close)) :
    ∃ pBins, linspace (listMin ((tailN lb (filteredSorted df tk td)).map Obs.close))
        (listMax ((tailN lb (filteredSorted df tk td)).map Obs.close)) (nb + 1) =
        Except.ok pBins ∧
      pBins.length = nb.toNat + 1 ∧
      (∀ i : ℕ, i < nb.toNat + 1 → pBins.getD i 0 =
        listMin ((tailN lb (filteredSorted df tk td)).map Obs.close) +
          (i : ℚ) * (listMax ((tailN lb (filteredSorted df tk td)).map Obs.close) -
            listMin ((tailN lb (filteredSorted df tk td)).map Obs.close)) / (nb.toNat : ℚ)) ∧
      (∀ v : ℚ, listMin ((tailN lb (filteredSorted df tk td)).map Obs.close) ≤ v →
        v ≤ listMax ((tailN lb (filteredSorted df tk td)).map Obs.close) →
        ∃ i, cutIdx pBins v = some i ∧ bracketMem pBins i v ∧
          ∀ k, bracketMem pBins k v → k = i) := by
  have hm1 : 1 ≤ nb.toNat := by omega
  have hpw := binEdges_pairwise_lt hmm hm1
  refine ⟨_, linspace_ok _ _ nb hnb, binEdges_length _ _ _, fun i hi => binEdges_getD hi, ?_⟩
  intro v hlo hhi
  have hlen2 : 2 ≤ (binEdges (listMin ((tailN lb (filteredSorted df tk td)).map Obs.close))
      (listMax ((tailN lb (filteredSorted df tk td)).map Obs.close)) nb.toNat).length := by
    rw [binEdges_length]; omega
  have hgd0 : (binEdges (listMin ((tailN lb (filteredSorted df tk td)).map Obs.close))
      (listMax ((tailN lb (filteredSorted df tk td)).map Obs.close)) nb.toNat).getD 0 0 ≤ v := by
    rw [binEdges_getD_zero]; exact hlo
  have hgdl : v ≤ (binEdges (listMin ((tailN lb (filteredSorted df tk td)).map Obs.close))
      (listMax ((tailN lb (filteredSorted df tk td)).map Obs.close)) nb.toNat).getD
      ((binEdges (listMin ((tailN lb (filteredSorted df tk td)).map Obs.close))
        (listMax ((tailN lb (filteredSorted df tk td)).map Obs.close)) nb.toNat).length - 1)
      0 := by
    rw [binEdges_length]
    have he : nb.toNat + 1 - 1 = nb.toNat := by omega
    rw [he, binEdges_getD_last hm1]
    exact hhi
  obtain ⟨i, hcut, _⟩ := cutIdx_isSome_of_between hlen2 hgd0 hgdl
  exact ⟨i, hcut, cutIdx_bracketMem hcut,
    fun k hk => bracketMem_unique (hpw.imp le_of_lt) hk (cutIdx_bracketMem hcut)⟩

/-- Witness for `C7_bracket_assignment` on the scenario series (min 98,
max 103, 2 brackets). -/
theorem C7_bracket_assignment_witness :
    ∃ pBins, linspace (listMin ((tailN 5 (filteredSorted specSeries "X" 4)).map Obs.close))
        (listMax ((tailN 5 (filteredSorted specSeries "X" 4)).map Obs.close)) (2 + 1) =
        Except.ok pBins ∧
      pBins.length = (2 : ℤ).toNat + 1 ∧
      (∀ i : ℕ, i < (2 : ℤ).toNat + 1 → pBins.getD i 0 =
        listMin ((tailN 5 (filteredSorted specSeries "X" 4)).map Obs.close) +
          (i : ℚ) * (listMax ((tailN 5 (filteredSorted specSeries "X" 4)).map Obs.close) -
            listMin ((tailN 5 (filteredSorted specSeries "X" 4)).map Obs.close)) /
            ((2 : ℤ).toNat : ℚ)) ∧
      (∀ v : ℚ, listMin ((tailN 5 (filteredSorted specSeries "X" 4)).map Obs.close) ≤ v →
        v ≤ listMax ((tailN 5 (filteredSorted specSeries "X" 4)).map Obs.close) →
        ∃ i, cutIdx pBins v = some i ∧ bracketMem pBins i v ∧
          ∀ k, bracketMem pBins k v → k = i) := by
  apply C7_bracket_assignment specSeries "X" 4 5 2 (by norm_num)
  rw [(by decide : (tailN 5 (filteredSorted specSeries "X" 4)).map Obs.close =
    [100, 102, 98, 101, 103]),
    (by decide : listMin [(100:ℚ), 102, 98, 101, 103] = 98),
    (by decide : listMax [(100:ℚ), 102, 98, 101, 103] = 103)]
  norm_num

/-- C8: the sentiment cut sends a defined score to Fear exactly on [0, 33.33],
to Neutral exactly on (33.33, 66.67], to Greed exactly on (66.67, 100] (only
the first bucket includes its lower bound), sends a missing score to no
bracket, and a row with no sentiment bracket contributes to no cell of any
grid. -/
theorem C8_sentiment_brackets :
    (∀ s : ℚ, fgCut (some s) = some FGLabel.Fear ↔ 0 ≤ s ∧ s ≤ 3333/100) ∧
    (∀ s : ℚ, fgCut (some s) = some FGLabel.Neutral ↔ 3333/100 < s ∧ s ≤ 6667/100) ∧
    (∀ s : ℚ, fgCut (some s) = some FGLabel.Greed ↔ 6667/100 < s ∧ s ≤ 100) ∧
    fgCut none = none ∧
    (∀ r : ARow, r.fgIdx = none → ∀ (tk : String) (pB : List ℚ) (rows₁ rows₂ : List ARow),
      mkGrid tk pB (rows₁ ++ r :: rows₂) = mkGrid tk pB (rows₁ ++ rows₂)) := by
  refine ⟨?_, ?_, ?_, rfl, ?_⟩
  · intro s
    rw [fgCut_some]
    constructor
    · intro h
      split_ifs at h with h1 h2 h3 h4
      all_goals try simp at h
      all_goals push_neg at *
      all_goals exact ⟨by linarith, by linarith⟩
    · rintro ⟨ha, hb⟩
      rw [if_neg (by linarith), if_pos hb]
  · intro s
    rw [fgCut_some]
    constructor
    · intro h
      split_ifs at h with h1 h2 h3 h4
      all_goals try simp at h
      all_goals push_neg at *
      all_goals exact ⟨by linarith, by linarith⟩
    · rintro ⟨ha, hb⟩
      rw [if_neg (by linarith), if_neg (by linarith), if_pos hb]
  · intro s
    rw [fgCut_some]
    constructor
    · intro h
      split_ifs at h with h1 h2 h3 h4
      all_goals try simp at h
      all_goals push_neg at *
      all_goals exact ⟨by linarith, by linarith⟩
    · rintro ⟨ha, hb⟩
      rw [if_neg (by linarith), if_neg (by linarith), if_neg (by linarith), if_pos hb]
  · intro r h tk pB rows₁ rows₂
    apply mkGrid_skip
    right
    intro i j
    simp [inCell, h]

/-- Witness for `C8_sentiment_brackets`: score 20 is Fear, and a row with no
sentiment bracket leaves the grid unchanged. -/
theorem C8_sentiment_brackets_witness :
    fgCut (some 20) = some FGLabel.Fear ∧
      mkGrid "X" [] ([⟨1, some 2, some 0, some FGLabel.Fear⟩] ++
        (⟨50, some 1, some 0, none⟩ : ARow) :: []) =
      mkGrid "X" [] ([⟨1, some 2, some 0, some FGLabel.Fear⟩] ++ []) :=
  ⟨(C8_sentiment_brackets.1 20).mpr ⟨by norm_num, by norm_num⟩,
    C8_sentiment_brackets.2.2.2.2 _ rfl "X" [] _ []⟩

/-- C9: the aggregated quantity is the simple forward difference
`close[i+1] - close[i]` for every position but the last, the last position's
gain is missing (NaN), and a row whose gain is missing contributes to no
cell's mean or count wherever it sits. -/
theorem C9_forward_difference :
    (∀ (closes : List ℚ) (k : ℕ), k + 1 < closes.length →
      (nextDayGains closes).getD k none = some (closes.getD (k + 1) 0 - closes.getD k 0)) ∧
    (∀ closes : List ℚ, closes ≠ [] →
      (nextDayGains closes).getD (closes.length - 1) none = none) ∧
    (∀ r : ARow, r.gain = none → ∀ (tk : String) (pB : List ℚ) (rows₁ rows₂ : List ARow),
      mkGrid tk pB (rows₁ ++ r :: rows₂) = mkGrid tk pB (rows₁ ++ rows₂)) :=
  ⟨fun _ k h => nextDayGains_getD k h, fun _ h => nextDayGains_last h,
    fun _ h tk pB rows₁ rows₂ => mkGrid_skip (Or.inl h) tk pB rows₁ rows₂⟩

/-- Witness for `C9_forward_difference` on the two-close list [100, 102]. -/
theorem C9_forward_difference_witness :
    (nextDayGains [100, 102]).getD 0 none =
      some ([(100:ℚ), 102].getD 1 0 - [(100:ℚ), 102].getD 0 0) ∧
    (nextDayGains [(100:ℚ), 102]).getD ([(100:ℚ), 102].length - 1) none = none :=
  ⟨C9_forward_difference.1 [100, 102] 0 (by norm_num),
    C9_forward_difference.2.1 [100, 102] (by simp)⟩

/-- C10: a value strictly outside [min_close, max_close] of the lookback
window receives no price bracket from `pd.cut` (it is not clamped into the
first or last bracket), and a row with no price bracket contributes to no
cell of any grid — it is silently dropped. -/
theorem C10_outside_dropped (df : List Obs) (tk : String) (td lb nb : Int) (hnb : 1 ≤ nb)
    (h2 : 2 ≤ (tailN lb (filteredSorted df tk td)).length) :
    ∃ pBins, linspace (listMin ((tailN lb (filteredSorted df tk td)).map Obs.close))
        (listMax ((tailN lb (filteredSorted df tk td)).map Obs.close)) (nb + 1) =
        Except.ok pBins ∧
      (∀ v : ℚ, v < listMin ((tailN lb (filteredSorted df tk td)).map Obs.close) ∨
        listMax ((tailN lb (filteredSorted df tk td)).map Obs.close) < v →
        cutIdx pBins v = none) ∧
      (∀ r : ARow, r.pIdx = none → ∀ (tk2 : String) (pB : List ℚ) (rows₁ rows₂ : List ARow),
        mkGrid tk2 pB (rows₁ ++ r :: rows₂) = mkGrid tk2 pB (rows₁ ++ rows₂)) := by
  have hm1 : 1 ≤ nb.toNat := by omega
  have hne : (tailN lb (filteredSorted df tk td)).map Obs.close ≠ [] := by
    intro hnil
    have hlen := congrArg List.length hnil
    rw [List.length_map, List.length_nil] at hlen
    omega
  have hab : listMin ((tailN lb (filteredSorted df tk td)).map Obs.close) ≤
      listMax ((tailN lb (filteredSorted df tk td)).map Obs.close) :=
    listMin_le _ _ (listMax_mem _ hne)
  refine ⟨_, linspace_ok _ _ nb hnb, ?_, ?_⟩
  · intro v hv
    rcases hv with hv | hv
    · apply cutIdx_none_of_lt (by rw [binEdges_length]; omega)
      rw [binEdges_getD_zero]
      exact hv
    · exact cutIdx_none_of_gt (binEdges_mem_le hab hm1) hv
  · intro r h tk2 pB rows₁ rows₂
    apply mkGrid_skip
    right
    intro i j
    simp [inCell, h]

/-- Witness for `C10_outside_dropped` on the scenario series with
`lookback_window = 2` (range [101, 103]). -/
theorem C10_outside_dropped_witness :
    ∃ pBins, linspace (listMin ((tailN 2 (filteredSorted specSeries "X" 4)).map Obs.close))
        (listMax ((tailN 2 (filteredSorted specSeries "X" 4)).map Obs.close)) (2 + 1) =
        Except.ok pBins ∧
      (∀ v : ℚ, v < listMin ((tailN 2 (filteredSorted specSeries "X" 4)).map Obs.close) ∨
        listMax ((tailN 2 (filteredSorted specSeries "X" 4)).map Obs.close) < v →
        cutIdx pBins v = none) ∧
      (∀ r : ARow, r.pIdx = none → ∀ (tk2 : String) (pB : List ℚ) (rows₁ rows₂ : List ARow),
        mkGrid tk2 pB (rows₁ ++ r :: rows₂) = mkGrid tk2 pB (rows₁ ++ rows₂)) :=
  C10_outside_dropped specSeries "X" 4 2 2 (by norm_num) (by decide)

end Mag7
